import Mathlib

/-!
# Verification of the meli-dashboard bulk-fetch orchestration layer

Shallow embedding, in Lean 4, of the data model and orchestration logic of the
meli-dashboard repository:

* `fetchWithRetry`    — the resilient fetcher of `src/app/api/products/route.ts`
                        lines 8–39 (identical copies in `src/unnamed/part_000`
                        and `src/unnamed/part_001`);
* the paginated order collector of `src/app/api/sales/route.ts` lines 48–79
  (plain variant) and `src/unnamed/part_001` lines 90–146 (variant with a
  consecutive-failure counter);
* the itemId→quantity first reconciliation pass (`sales/route.ts` 82–97,
  `part_001` 151–166);
* the SKU resolution / aggregation second pass (`sales/route.ts` 101–139,
  `part_001` 171–224);
* the products route pipeline (`products/route.ts` 41–197) with its
  detail multi-get batch loop;
* the dashboard-side collector `fetchProducts` and the render-time SKU join
  (`src/app/dashboard/page.tsx`).

Conventions of the embedding:

* HTTP statuses are `Nat`; `response.ok` is `200 ≤ s < 300`.
* A network interaction that may throw (transport error) is modelled by an
  outcome type with an explicit `thrown` constructor.
* Upstream nondeterminism is a function from the index of the attempt /
  request to its outcome.
* JavaScript objects used as string-keyed maps are association lists
  (`List (String × Int)` / `List (String × Nat)`) updated in place with
  insertion order preserved, exactly as JS object keys behave for the
  non-numeric keys used here.
* JavaScript `x || y` on strings (falsy = absent or `""`) is `strOr`;
  on numbers with guard `> 0` the falsy cases are subsumed by the guard.
* Wall-clock effects (`delay`, `dateFrom`/`dateTo`) are not part of the
  state observed by any claim about values; backoff *durations* are recorded
  as data (the list of waits) where a claim mentions them.
-/

/-- Embeds `response.ok` of the Fetch API: status in [200, 300). -/
def isOkStatus (s : Nat) : Bool := 200 ≤ s && s < 300

/-- The transient statuses retried by `fetchWithRetry`
(`route.ts` line 19: `response.status === 429 || response.status === 503`). -/
def isTransient (s : Nat) : Bool := s == 429 || s == 503

/-- Outcome of one attempt of the underlying `fetch`:
`none` = transport-level failure (the promise rejected), `some s` = a response
with HTTP status `s` arrived. -/
abbrev AttemptOutcome := Option Nat

/-- Result of a whole `fetchWithRetry` invocation. -/
inductive FetchOut : Type
  /-- a `Response` object was returned to the caller (any status; the code
  returns 2xx responses and also non-2xx, non-transient responses as-is). -/
  | success (status : Nat)
  /-- the last transport error was re-thrown (`throw error`, line 33). -/
  | raisedTransport
  /-- the `throw new Error('Max retries alcanzado')` raise (line 38). -/
  | raisedMaxRetries
deriving DecidableEq, Repr

/-- Trace of one `fetchWithRetry` invocation: its result, the backoff waits
performed (in ms, in order), and the number of `fetch` attempts issued. -/
structure FwrRun : Type where
  result : FetchOut
  waits : List Nat
  attempts : Nat
deriving DecidableEq, Repr

/-- Shallow embedding of `fetchWithRetry` (`src/app/api/products/route.ts`
lines 8–39; byte-identical in `part_000`/`part_001` up to log text).
`f j` is the outcome of the `j`-th `fetch` attempt; `retries` and `delayMs`
are the loop parameters (defaults 3 and 1000 at the call sites); `i` is the
loop counter, `0` at the top-level entry.

```
for (let i = 0; i < retries; i++) {
  try {
    const response = await fetch(url, options);
    if (response.ok) return response;
    if (response.status === 429 || response.status === 503) {
      await delay(delayMs * Math.pow(2, i)); continue; }
    return response;
  } catch (error) {
    if (i < retries - 1) await delay(delayMs * Math.pow(2, i));
    else throw error; } }
throw new Error('Max retries alcanzado');
```
-/
def fetchWithRetry (f : Nat → AttemptOutcome) (retries delayMs i : Nat) : FwrRun :=
  if _h : i < retries then
    match f i with
    | none =>
      if i < retries - 1 then
        let r := fetchWithRetry f retries delayMs (i + 1)
        ⟨r.result, delayMs * 2 ^ i :: r.waits, r.attempts + 1⟩
      else ⟨FetchOut.raisedTransport, [], 1⟩
    | some s =>
      if isOkStatus s then ⟨FetchOut.success s, [], 1⟩
      else if isTransient s then
        let r := fetchWithRetry f retries delayMs (i + 1)
        ⟨r.result, delayMs * 2 ^ i :: r.waits, r.attempts + 1⟩
      else ⟨FetchOut.success s, [], 1⟩
  else ⟨FetchOut.raisedMaxRetries, [], 0⟩
termination_by retries - i
decreasing_by all_goals omega

/-- An attempt outcome that makes the loop retry (provided the budget is not
exhausted): a transport error, or a transient (429/503) status. -/
def retryable (o : AttemptOutcome) : Bool :=
  match o with
  | none => true
  | some s => isTransient s

/-! ## Shared data model: attributes, SKU extraction, JS object maps -/

/-- JavaScript `a || b` where `a` is a possibly-absent string: `b` is used
when `a` is absent (`undefined`/`null`) or empty (both falsy). -/
def strOr (a : Option String) (b : String) : String :=
  match a with
  | some s => if s = "" then b else s
  | none => b

/-- JavaScript `a || null` on a possibly-absent string: the empty string is
falsy, so it collapses to `null` as well. -/
def strOrNull (a : Option String) : Option String :=
  match a with
  | some s => if s = "" then none else some s
  | none => none

/-- One entry of an item `attributes` array, restricted to the fields the
code reads: `attr.id` and `attr.value_name` (which may be absent/null). -/
structure MeliAttribute : Type where
  id : String
  value_name : Option String
deriving DecidableEq, Repr

/-- Embeds `attributes.find(attr => attr.id === 'SELLER_SKU')`, shared by
both routes and the dashboards. -/
def findSellerSku (attrs : List MeliAttribute) : Option MeliAttribute :=
  attrs.find? (fun attr => attr.id == "SELLER_SKU")

/-- SKU extraction of the products route (`products/route.ts` lines
144–145, `part_000` 118–119): `const sku = skuAttribute?.value_name || null`
— when the attribute is missing, or its `value_name` is absent or empty
(falsy), the output field is `null`. -/
def productSku (attrs : List MeliAttribute) : Option String :=
  strOrNull ((findSellerSku attrs).bind (fun attr => attr.value_name))

/-- SKU extraction of the sales aggregation (`sales/route.ts` line 130,
`part_001` line 210): `const sku = skuAttribute?.value_name || 'SIN-SKU'`. -/
def salesSku (attrs : List MeliAttribute) : String :=
  strOr ((findSellerSku attrs).bind (fun attr => attr.value_name)) "SIN-SKU"

/-- An attribute as typed by the dashboard's `Product` interface
(`dashboard/page.tsx` lines 10–14): `value_name` is a plain string there. -/
structure DashAttribute : Type where
  id : String
  name : String
  value_name : String
deriving DecidableEq, Repr

/-- Render-time SKU of the dashboard (`dashboard/page.tsx` lines 194–201):
`'-'` when the attribute array is absent or empty or has no SELLER_SKU
entry, otherwise the attribute's `value_name`. -/
def getSellerSKU (attrs : Option (List DashAttribute)) : String :=
  match attrs with
  | none => "-"
  | some l =>
    if l.length = 0 then "-"
    else
      match l.find? (fun attr => attr.id == "SELLER_SKU") with
      | some attr => attr.value_name
      | none => "-"

/-- JavaScript `m[k] || 0` on a JS object used as a string-keyed number map (the keys
of the maps built here are unique, so first-match lookup is the JS
property read). -/
def alookup (m : List (String × Int)) (k : String) : Int :=
  match m with
  | [] => 0
  | (k', v) :: rest => if k' = k then v else alookup rest k

/-- JavaScript `salesBySKU[sku] || 0` guarded by the `'-'` sentinel
(`dashboard/page.tsx` lines 203–206). -/
def getSalesBySKU (salesBySKU : List (String × Int)) (sku : String) : Int :=
  if sku = "-" then 0 else alookup salesBySKU sku

/-- JavaScript `m[k] = (m[k] || 0) + v` on a JS object map: updates an existing key in
place (keeping its position) or appends the new key at the end — JS object
insertion order for the non-numeric keys used here. -/
def bump (m : List (String × Int)) (k : String) (v : Int) : List (String × Int) :=
  match m with
  | [] => [(k, v)]
  | (k', v') :: rest => if k' = k then (k', v' + v) :: rest else (k', v') :: bump rest k v

/-! ## Orders and the first reconciliation pass -/

/-- One element of `order.order_items`, restricted to the fields the code
reads: `orderItem.item?.id` and `orderItem.quantity`. -/
structure OrderLine : Type where
  itemId : Option String
  quantity : Option Int
deriving DecidableEq, Repr

/-- An order as consumed by the reconciler: only `order_items` is read;
`none` models an absent or non-array field (the code guards with
`order.order_items && Array.isArray(order.order_items)`). -/
structure Order : Type where
  order_items : Option (List OrderLine)
deriving DecidableEq, Repr

/-- The guard `if (itemId && quantity > 0)` of `sales/route.ts` line 91 /
`part_001` line 160: the item id must be present and non-empty (truthy) and
`orderItem.quantity || 0` must be strictly positive. -/
def keptLine (l : OrderLine) : Bool :=
  match l.itemId with
  | some id => id != "" && l.quantity.getD 0 > 0
  | none => false

/-- One iteration of the inner order-line loop of the first pass
(`sales/route.ts` lines 87–95): a kept line adds its quantity to
`itemSales[itemId]` and to `totalUnits`. -/
def lineStep (acc : List (String × Int) × Int) (l : OrderLine) :
    List (String × Int) × Int :=
  if keptLine l then
    (bump acc.1 (l.itemId.getD "") (l.quantity.getD 0), acc.2 + l.quantity.getD 0)
  else acc

/-- First reconciliation pass (`sales/route.ts` lines 82–97, `part_001`
lines 151–166): fold every order line into the `itemSales` map
(itemId → summed units) and the running `totalUnits`; an absent or
non-array `order_items` contributes nothing. -/
def collectItemSales (orders : List Order) : List (String × Int) × Int :=
  orders.foldl (fun acc o => (o.order_items.getD []).foldl lineStep acc) ([], 0)

/-- All order lines of a collection of orders, in iteration order (orders
with an absent/non-array `order_items` contribute nothing). -/
def linesOf (orders : List Order) : List OrderLine :=
  (orders.map (fun o => o.order_items.getD [])).flatten

/-! ## Multi-get detail entries and the SKU aggregation pass -/

/-- Shipping descriptor of an item detail body (the fields the code reads). -/
structure ShippingInfo : Type where
  mode : Option String
  free_shipping : Option Bool
  logistic_type : Option String
deriving DecidableEq, Repr

/-- An item detail body as returned inside a `/items?ids=…` multi-get
entry; `pictures` is modelled as the list of picture urls. Fields the
routes never read are omitted. -/
structure ItemBody : Type where
  id : String
  title : String
  price : Int
  available_quantity : Int
  sold_quantity : Option Int
  status : String
  permalink : String
  thumbnail : Option String
  pictures : Option (List String)
  shipping : Option ShippingInfo
  attributes : Option (List MeliAttribute)
deriving DecidableEq, Repr

/-- One per-id entry of a multi-get response: `{code, body}`; `body` may be
absent. -/
structure DetailEntry : Type where
  code : Nat
  body : Option ItemBody
deriving DecidableEq, Repr

/-- Outcome of one multi-get batch request, after `fetchWithRetry`:
`thrown` = the fetch (or its retry budget) threw; `resp` = a response with
the given status, whose JSON is the entry list (read only when the status
is ok). -/
inductive BatchOutcome : Type
  | thrown
  | resp (status : Nat) (entries : List DetailEntry)
deriving DecidableEq, Repr

/-- One iteration of the SKU-pass entry loop (`part_001` lines 203–216,
`sales/route.ts` lines 123–136): an entry with `code === 200` and a truthy
body adds `itemSales[body.id] || 0` units to `salesBySKU[sku]` — `sku`
being the SELLER_SKU value or the `'SIN-SKU'` sentinel — and increments
`processedItems`; every other entry is skipped. -/
def skuEntryStep (itemSales : List (String × Int))
    (acc : List (String × Int) × Nat) (e : DetailEntry) :
    List (String × Int) × Nat :=
  if e.code = 200 then
    match e.body with
    | some b =>
      (bump acc.1 (salesSku (b.attributes.getD [])) (alookup itemSales b.id), acc.2 + 1)
    | none => acc
  else acc

/-- The batched SKU pass of `part_001` (lines 177–224): slices the item ids
into groups of 20, fetches each through `fetchWithRetry` inside a
`try`/`catch`, folds ok responses with `skuEntryStep`, and *continues* past
failed or thrown batches. Returns the final `(salesBySKU, processedItems)`
accumulator and the id-batches requested. -/
def skuPassAux (bout : Nat → BatchOutcome) (itemSales : List (String × Int))
    (k : Nat) (remaining : List String) (acc : List (String × Int) × Nat) :
    (List (String × Int) × Nat) × List (List String) :=
  match remaining with
  | [] => (acc, [])
  | x :: xs =>
    let batch := (x :: xs).take 20
    let acc' :=
      match bout k with
      | BatchOutcome.thrown => acc
      | BatchOutcome.resp s entries =>
        if isOkStatus s then entries.foldl (skuEntryStep itemSales) acc else acc
    let rest := skuPassAux bout itemSales (k + 1) ((x :: xs).drop 20) acc'
    (rest.1, batch :: rest.2)
termination_by remaining.length
decreasing_by simp [List.length_drop]; omega

/-- The batched SKU pass of the plain sales route (`sales/route.ts` lines
101–139): same shape, but there is no `try`/`catch` around the batch fetch,
so a thrown batch aborts the whole route (result `none`). -/
def skuPassPlainAux (bout : Nat → BatchOutcome) (itemSales : List (String × Int))
    (k : Nat) (remaining : List String) (acc : List (String × Int) × Nat) :
    Option (List (String × Int) × Nat) × List (List String) :=
  match remaining with
  | [] => (some acc, [])
  | x :: xs =>
    let batch := (x :: xs).take 20
    match bout k with
    | BatchOutcome.thrown => (none, [batch])
    | BatchOutcome.resp s entries =>
      let acc' := if isOkStatus s then entries.foldl (skuEntryStep itemSales) acc else acc
      let rest := skuPassPlainAux bout itemSales (k + 1) ((x :: xs).drop 20) acc'
      (rest.1, batch :: rest.2)
termination_by remaining.length
decreasing_by simp [List.length_drop]; omega

/-- The pure SKU-aggregation kernel of `part_001` lines 203–217: given the
resolution outcome of each item id (`resolve id = none` when the id was not
resolved by any code-200 entry) and the units each id sold, fold the ids
into the SKU → units map exactly as the entry loop does. -/
def aggBySku (resolve : String → Option String) (units : String → Int)
    (ids : List String) : List (String × Int) :=
  ids.foldl
    (fun acc id =>
      match resolve id with
      | some sku => bump acc sku (units id)
      | none => acc)
    []

/-! ## Paginated order collectors -/

/-- Outcome of one orders-page request. `thrown` = the fetch (or
`fetchWithRetry` budget) threw; `resp` = a response with the given status
arrived, whose JSON carries `results` (`ordersData.results || []`) and
`paging.total` (`ordersData.paging?.total || 0`), read only on an ok
status. -/
inductive PageOutcome : Type
  | thrown
  | resp (status : Nat) (results : List Order) (total : Nat)
deriving DecidableEq, Repr

/-- How one collection loop terminated. -/
inductive StopCause : Type
  /-- the `hasMore` flag became false: `offset ≥ total` or an empty page. -/
  | completeStop
  /-- the `offset >= 2000` safety break fired. -/
  | safetyStop
  /-- the loop broke on page failure (plain loop: first bad page; retry
  loop: 3 consecutive failed attempts). -/
  | failStop
  /-- an exception escaped the loop (plain loop only, which has no
  `try`/`catch` inside: the route's outer catch takes over). -/
  | threwStop
deriving DecidableEq, Repr

/-- Result of one collection loop: accumulated orders, the offsets of the
page requests issued in order (the retry loop can repeat an offset), and
the termination cause. -/
structure OrdersRun : Type where
  orders : List Order
  offsets : List Nat
  stop : StopCause
deriving DecidableEq, Repr

/-- The plain paginated collector of `sales/route.ts` lines 48–79:

```
while (hasMore) {
  const ordersResponse = await fetch(…offset=${offset}&limit=50…);
  if (!ordersResponse.ok) break;
  const results = ordersData.results || [];
  allOrders = allOrders.concat(results);
  totalFound = ordersData.paging?.total || 0;
  offset += limit;
  hasMore = offset < totalFound && results.length > 0;
  if (offset >= 2000) break;
}
```

`page n` is the outcome of the `n`-th request of the run; `offset` is the
current offset (0 at entry). A thrown fetch escapes the loop
(`threwStop`). -/
def collectOrders (page : Nat → PageOutcome) (n offset : Nat) : OrdersRun :=
  match page n with
  | PageOutcome.thrown => ⟨[], [offset], StopCause.threwStop⟩
  | PageOutcome.resp s results total =>
    if isOkStatus s then
      if _h1 : offset + 50 ≥ 2000 then ⟨results, [offset], StopCause.safetyStop⟩
      else if offset + 50 < total ∧ results ≠ [] then
        let rest := collectOrders page (n + 1) (offset + 50)
        ⟨results ++ rest.orders, offset :: rest.offsets, rest.stop⟩
      else ⟨results, [offset], StopCause.completeStop⟩
    else ⟨[], [offset], StopCause.failStop⟩
termination_by 2000 - offset
decreasing_by omega

/-- The retrying paginated collector of `part_001` lines 90–146: like
`collectOrders`, but a failed page (bad status or thrown fetch, both caught)
increments `failedAttempts` (`fa`) and the *same* offset is re-requested
until 3 consecutive failures break the loop; a successful page resets the
counter to 0. -/
def collectOrdersRetry (page : Nat → PageOutcome) (n offset fa : Nat) : OrdersRun :=
  match page n with
  | PageOutcome.thrown =>
    if _h : fa + 1 ≥ 3 then ⟨[], [offset], StopCause.failStop⟩
    else
      let rest := collectOrdersRetry page (n + 1) offset (fa + 1)
      ⟨rest.orders, offset :: rest.offsets, rest.stop⟩
  | PageOutcome.resp s results total =>
    if isOkStatus s then
      if _h1 : offset + 50 ≥ 2000 then ⟨results, [offset], StopCause.safetyStop⟩
      else if offset + 50 < total ∧ results ≠ [] then
        let rest := collectOrdersRetry page (n + 1) (offset + 50) 0
        ⟨results ++ rest.orders, offset :: rest.offsets, rest.stop⟩
      else ⟨results, [offset], StopCause.completeStop⟩
    else
      if _h2 : fa + 1 ≥ 3 then ⟨[], [offset], StopCause.failStop⟩
      else
        let rest := collectOrdersRetry page (n + 1) offset (fa + 1)
        ⟨rest.orders, offset :: rest.offsets, rest.stop⟩
termination_by (2000 - offset) * 3 + (3 - fa)
decreasing_by all_goals omega

/-- The standard failure-free upstream of claim C5: every page request is
answered 200 with `min(50, N − offset)` results (dummy orders) out of a
declared total of `N`; request `n` of a fresh run serves offset `50·n`. -/
def stdPages (N : Nat) : Nat → PageOutcome :=
  fun n => PageOutcome.resp 200 (List.replicate (min 50 (N - 50 * n)) ⟨some []⟩) N

/-! ## Route-level pipelines -/

/-- An upstream request issued by a route, as recorded in the request
trace: the `/users/me` call, a listing search page (`offset`, `limit` taken
from the URL parameters), an orders page (`offset`; the limit is the
constant 50 of the route), or an `/items?ids=…` multi-get with the given
id batch. One trace element per call-site invocation (the attempts that
`fetchWithRetry` makes inside one invocation are accounted by
`fetchWithRetry` itself). -/
inductive UpReq : Type
  | userinfo
  | search (offset limit : Nat)
  | ordersPage (offset limit : Nat)
  | itemsBatch (ids : List String)
deriving DecidableEq, Repr

/-- Upstream behaviour for one sales-route run: outcome of the
`/users/me` call (`none` = it threw), of each orders page, and of each
SKU multi-get batch. -/
structure SalesUpstream : Type where
  userOutcome : Option Nat
  pages : Nat → PageOutcome
  batches : Nat → BatchOutcome

/-- The 200-response body of `part_001` (lines 235–243). The wall-clock
fields `dateFrom`/`dateTo` are not modelled. -/
structure SalesPayload : Type where
  salesBySKU : List (String × Int)
  totalOrders : Nat
  totalUnitsAllSKUs : Int
  totalItemsWithSales : Nat
  periodDays : Nat
deriving DecidableEq, Repr

/-- The 200-response body of the plain `sales/route.ts` (lines 144–151),
which omits `totalItemsWithSales`. -/
structure SalesPayloadPlain : Type where
  salesBySKU : List (String × Int)
  totalOrders : Nat
  totalUnitsAllSKUs : Int
  periodDays : Nat
deriving DecidableEq, Repr

/-- Terminal outcome of a sales route invocation: the 401
`{error: 'No autenticado'}` response, the generic 500
`{error: 'Error obteniendo ventas'}` response, or a 200 payload. -/
inductive SalesOut (α : Type) : Type
  | noAuth
  | failed
  | payload (p : α)
deriving DecidableEq, Repr

/-- The sales route of `part_001` (GET, lines 41–252): token check, then
`/users/me` through `fetchWithRetry` (any non-ok status throws → 500), then
the retrying order collector, the first reconciliation pass, and the
batched SKU pass; finally the JSON payload. Returns the result and the
trace of upstream requests issued. -/
def salesRoute (token : Option String) (u : SalesUpstream) :
    SalesOut SalesPayload × List UpReq :=
  match token with
  | none => (SalesOut.noAuth, [])
  | some _ =>
    match u.userOutcome with
    | none => (SalesOut.failed, [UpReq.userinfo])
    | some s =>
      if isOkStatus s then
        let run := collectOrdersRetry u.pages 0 0 0
        let sales := collectItemSales run.orders
        let itemIds := sales.1.map (fun kv => kv.1)
        let pass := skuPassAux u.batches sales.1 0 itemIds ([], 0)
        (SalesOut.payload
          ⟨pass.1.1, run.orders.length, sales.2, pass.1.2, 60⟩,
         UpReq.userinfo ::
           (run.offsets.map (fun o => UpReq.ordersPage o 50) ++
            pass.2.map UpReq.itemsBatch))
      else (SalesOut.failed, [UpReq.userinfo])

/-- The plain sales route (`sales/route.ts` GET, lines 4–160): same
pipeline but with the non-retrying collector, a plain `fetch` for
`/users/me`, and no `try`/`catch` around page or batch fetches — any
thrown fetch reaches the outer catch and produces the generic 500. -/
def salesRoutePlain (token : Option String) (u : SalesUpstream) :
    SalesOut SalesPayloadPlain × List UpReq :=
  match token with
  | none => (SalesOut.noAuth, [])
  | some _ =>
    match u.userOutcome with
    | none => (SalesOut.failed, [UpReq.userinfo])
    | some s =>
      if isOkStatus s then
        let run := collectOrders u.pages 0 0
        let pageReqs := run.offsets.map (fun o => UpReq.ordersPage o 50)
        if run.stop = StopCause.threwStop then
          (SalesOut.failed, UpReq.userinfo :: pageReqs)
        else
          let sales := collectItemSales run.orders
          let itemIds := sales.1.map (fun kv => kv.1)
          let pass := skuPassPlainAux u.batches sales.1 0 itemIds ([], 0)
          match pass.1 with
          | none =>
            (SalesOut.failed,
             UpReq.userinfo :: (pageReqs ++ pass.2.map UpReq.itemsBatch))
          | some acc =>
            (SalesOut.payload ⟨acc.1, run.orders.length, sales.2, 60⟩,
             UpReq.userinfo :: (pageReqs ++ pass.2.map UpReq.itemsBatch))
      else (SalesOut.failed, [UpReq.userinfo])

/-! ## Products route -/

/-- Embeds `thumbnail: productData.thumbnail || productData.pictures?.[0]?.url
|| ''` (`products/route.ts` line 158). -/
def thumbOf (b : ItemBody) : String :=
  strOr b.thumbnail (strOr ((b.pictures.getD []).head?) "")

/-- The product record pushed by the products route (lines 150–161). -/
structure ApiProduct : Type where
  id : String
  title : String
  price : Int
  available_quantity : Int
  sold_quantity : Int
  status : String
  permalink : String
  thumbnail : String
  fulfillment : Option String
  sku : Option String
deriving DecidableEq, Repr

/-- Builds the pushed record from a detail body (`products/route.ts`
lines 141–161): `sold_quantity || 0`, the thumbnail fallback chain,
`fulfillment = shipping?.logistic_type || null`, and the `null`-defaulting
SKU extraction. -/
def mkApiProduct (b : ItemBody) : ApiProduct :=
  { id := b.id
    title := b.title
    price := b.price
    available_quantity := b.available_quantity
    sold_quantity := b.sold_quantity.getD 0
    status := b.status
    permalink := b.permalink
    thumbnail := thumbOf b
    fulfillment := strOrNull (b.shipping.bind (fun sh => sh.logistic_type))
    sku := productSku (b.attributes.getD []) }

/-- The per-entry filter of the detail loop (`products/route.ts` lines
139–165): an entry contributes a product iff `item.code === 200 &&
item.body`; entries with a non-200 sub-status are merely logged. -/
def entryProduct (e : DetailEntry) : Option ApiProduct :=
  if e.code = 200 then e.body.map mkApiProduct else none

/-- The detail multi-get batch loop of the products route (lines 113–169):
slices ids into groups of ≤ 20; an ok batch response contributes its
code-200 entries, a bad status skips the batch (logged) and the loop
continues; a *thrown* batch fetch propagates out of the loop (there is no
`try`/`catch` inside it), flagged by the final `Bool`. Returns the
products pushed, the id-batches requested, and the abort flag. -/
def productBatches (bout : Nat → BatchOutcome) (k : Nat) (remaining : List String) :
    List ApiProduct × List (List String) × Bool :=
  match remaining with
  | [] => ([], [], false)
  | x :: xs =>
    let batch := (x :: xs).take 20
    match bout k with
    | BatchOutcome.thrown => ([], [batch], true)
    | BatchOutcome.resp s entries =>
      let here := if isOkStatus s then entries.filterMap entryProduct else []
      let rest := productBatches bout (k + 1) ((x :: xs).drop 20)
      (here ++ rest.1, batch :: rest.2.1, rest.2.2)
termination_by remaining.length
decreasing_by simp [List.length_drop]; omega

/-- Upstream behaviour for one products-route run: the `/users/me`
outcome (`none` = threw), the items-search outcome (`none` = threw,
otherwise status with the id list and `paging.total`), and each detail
batch outcome. -/
structure ProductsUpstream : Type where
  userOutcome : Option Nat
  searchOutcome : Option (Nat × List String × Nat)
  batches : Nat → BatchOutcome

/-- The 200-response body of the products route (lines 174–188; the
legacy duplicate `results`/`paging` block repeats the same four values and
is not modelled separately). -/
structure ProductsPayload : Type where
  products : List ApiProduct
  total : Nat
  offset : Nat
  limit : Nat
deriving DecidableEq, Repr

/-- Terminal outcome of a products route invocation. The route has *two*
distinct 401 responses: `noAuth` (`'No autenticado'`, missing cookie) and
`tokenExpired` (`'Token inválido o expirado'`, upstream 401 on
`/users/me`); everything else that throws becomes the generic 500. -/
inductive ProductsOut : Type
  | noAuth
  | tokenExpired
  | failed
  | payload (p : ProductsPayload)
deriving DecidableEq, Repr

/-- The products route (`products/route.ts` GET, lines 41–197). `qOffset`
and `qLimit` are the caller-supplied query parameters (numeric content of
`searchParams.get('offset') || '0'` / `searchParams.get('limit') || '50'`);
note the caller's `limit` is forwarded to the upstream search URL as-is. -/
def productsRoute (token : Option String) (qOffset qLimit : Option Nat)
    (u : ProductsUpstream) : ProductsOut × List UpReq :=
  match token with
  | none => (ProductsOut.noAuth, [])
  | some _ =>
    match u.userOutcome with
    | none => (ProductsOut.failed, [UpReq.userinfo])
    | some s =>
      if isOkStatus s then
        let offset := qOffset.getD 0
        let limit := qLimit.getD 50
        match u.searchOutcome with
        | none => (ProductsOut.failed, [UpReq.userinfo, UpReq.search offset limit])
        | some (s', ids, total) =>
          if isOkStatus s' then
            let bs := productBatches u.batches 0 ids
            let reqs := UpReq.userinfo :: UpReq.search offset limit ::
              bs.2.1.map UpReq.itemsBatch
            if bs.2.2 then (ProductsOut.failed, reqs)
            else (ProductsOut.payload ⟨bs.1, total, offset, limit⟩, reqs)
          else (ProductsOut.failed, [UpReq.userinfo, UpReq.search offset limit])
      else if s = 401 then (ProductsOut.tokenExpired, [UpReq.userinfo])
      else (ProductsOut.failed, [UpReq.userinfo])

/-! ## Dashboard-side collector -/

/-- The dashboard catalog collector `fetchProducts`
(`dashboard/page.tsx` lines 68–118) under ok responses: one initial
request at offset 0 yields `total`, then one request per further batch
`i = 1, …, ⌈total/50⌉ − 1` at offset `50·i`; `pageCount off` is the number
of products the `/api/products` response at offset `off` carries. Returns
the request offsets in order and the accumulated product count. -/
def fetchProductsRun (pageCount : Nat → Nat) (total : Nat) : List Nat × Nat :=
  let totalBatches := (total + 49) / 50
  let restIdx := (List.range totalBatches).drop 1
  (0 :: restIdx.map (fun i => 50 * i),
   pageCount 0 + (restIdx.map (fun i => pageCount (50 * i))).sum)

/-- A minimal detail body used by concrete evaluations. -/
def demoBody : ItemBody :=
  ⟨"i", "t", 0, 0, none, "active", "p", none, none, none, none⟩

/-- A 20-entry multi-get response with 3 non-200 sub-statuses, used by
concrete evaluations. -/
def demoEntries : List DetailEntry :=
  List.replicate 17 ⟨200, some demoBody⟩ ++ List.replicate 3 ⟨404, none⟩

lemma fwr_out_of_budget (f : Nat → AttemptOutcome) (r d i : Nat) (h : ¬ i < r) :
    fetchWithRetry f r d i = ⟨FetchOut.raisedMaxRetries, [], 0⟩ := by
  rw [fetchWithRetry]; simp [h]

lemma transient_not_ok {s : Nat} (h : isTransient s = true) : isOkStatus s = false := by
  have : s = 429 ∨ s = 503 := by
    simpa [isTransient, Nat.beq_eq_true_eq] using h
  rcases this with h' | h' <;> subst h' <;> decide

lemma fwr_attempts_le (f : Nat → AttemptOutcome) (r d : Nat) :
    ∀ i, (fetchWithRetry f r d i).attempts ≤ r - i := by
  have key : ∀ n i, r - i ≤ n → (fetchWithRetry f r d i).attempts ≤ r - i := by
    intro n
    induction n with
    | zero =>
      intro i hi
      rw [fetchWithRetry]
      have : ¬ i < r := by omega
      simp [this]
    | succ n ih =>
      intro i hi
      rw [fetchWithRetry]
      by_cases h : i < r
      · simp only [dif_pos h]
        cases hfi : f i with
        | none =>
          by_cases h2 : i < r - 1
          · simp only [if_pos h2]
            have := ih (i + 1) (by omega)
            simpa using by omega
          · simp [h2]; omega
        | some s =>
          by_cases hok : isOkStatus s
          · simp [hok]; omega
          · by_cases htr : isTransient s
            · have := ih (i + 1) (by omega)
              simp [hok, htr]
              omega
            · simp [hok, htr]; omega
      · simp [h]
  intro i
  exact key (r - i) i le_rfl

lemma fwr_characterize (f : Nat → AttemptOutcome) (r d : Nat) :
    ∀ k i s, (∀ j, j < k → retryable (f (i + j)) = true) → i + k < r →
      f (i + k) = some s → retryable (some s) = false →
      fetchWithRetry f r d i =
        ⟨FetchOut.success s, (List.range k).map (fun t => d * 2 ^ (i + t)), k + 1⟩ := by
  intro k
  induction k with
  | zero =>
    intro i s _ hlt hfi hnr
    rw [fetchWithRetry]
    have hi : i < r := by omega
    have hfi' : f i = some s := by simpa using hfi
    simp only [dif_pos hi, hfi']
    by_cases hok : isOkStatus s
    · simp [hok]
    · have htr : isTransient s = false := by simpa [retryable] using hnr
      simp [hok, htr]
  | succ k ih =>
    intro i s hretry hlt hfi hnr
    have h0 : retryable (f i) = true := by simpa using hretry 0 (by omega)
    have hrec := ih (i + 1) s
      (fun j hj => by
        have := hretry (j + 1) (by omega)
        simpa [Nat.add_assoc, Nat.add_comm 1 j] using this)
      (by omega)
      (by
        have : i + 1 + k = i + (k + 1) := by omega
        rw [this]; exact hfi)
      hnr
    have hwaits :
        d * 2 ^ i :: (List.range k).map (fun t => d * 2 ^ (i + 1 + t)) =
          (List.range (k + 1)).map (fun t => d * 2 ^ (i + t)) := by
      rw [List.range_succ_eq_map, List.map_cons, List.map_map]
      simp only [Nat.add_zero]
      congr 1
      apply List.map_congr_left
      intro a _
      have : i + (a + 1) = i + 1 + a := by omega
      simp [Function.comp, this]
    rw [fetchWithRetry]
    have hi : i < r := by omega
    simp only [dif_pos hi]
    cases hfi0 : f i with
    | none =>
      have h2 : i < r - 1 := by omega
      simp only [if_pos h2, hrec]
      simp [hwaits]
    | some s0 =>
      have htr0 : isTransient s0 = true := by
        have := h0; rw [hfi0] at this; simpa [retryable] using this
      have hok0 : isOkStatus s0 = false := transient_not_ok htr0
      simp only [hok0, htr0, hrec]
      simp [hwaits]

lemma fwr_exhaust (f : Nat → AttemptOutcome) (r d : Nat) (hr : 1 ≤ r) :
    ∀ n i, r - i = n + 1 → (∀ j, i ≤ j → j < r → retryable (f j) = true) →
      (fetchWithRetry f r d i).result =
        (if f (r - 1) = none then FetchOut.raisedTransport else FetchOut.raisedMaxRetries) ∧
      (fetchWithRetry f r d i).attempts = r - i := by
  intro n
  induction n with
  | zero =>
    intro i hi hretry
    have hieq : i = r - 1 := by omega
    have hilt : i < r := by omega
    have h0 : retryable (f i) = true := hretry i le_rfl hilt
    rw [fetchWithRetry]
    simp only [dif_pos hilt]
    cases hfi : f i with
    | none =>
      have h2 : ¬ i < r - 1 := by omega
      rw [hieq] at hfi
      simp [h2, hfi]
      omega
    | some s =>
      have htr : isTransient s = true := by
        have := h0; rw [hfi] at this; simpa [retryable] using this
      have hok' : ¬ (isOkStatus s = true) := by simp [transient_not_ok htr]
      have hstop : ¬ i + 1 < r := by omega
      rw [hieq] at hfi
      constructor
      · simp [hok', htr, fwr_out_of_budget f r d (i + 1) hstop, hfi]
      · simp [hok', htr, fwr_out_of_budget f r d (i + 1) hstop]
        omega
  | succ n ih =>
    intro i hi hretry
    have hilt : i < r := by omega
    have h0 : retryable (f i) = true := hretry i le_rfl hilt
    have hrec := ih (i + 1) (by omega) (fun j hj hj' => hretry j (by omega) hj')
    rw [fetchWithRetry]
    simp only [dif_pos hilt]
    cases hfi : f i with
    | none =>
      have h2 : i < r - 1 := by omega
      simp only [if_pos h2]
      refine ⟨by simpa using hrec.1, ?_⟩
      have := hrec.2
      simp only [FwrRun.attempts] at this ⊢
      omega
    | some s =>
      have htr : isTransient s = true := by
        have := h0; rw [hfi] at this; simpa [retryable] using this
      have hok' : ¬ (isOkStatus s = true) := by simp [transient_not_ok htr]
      refine ⟨by simpa [hok', htr] using hrec.1, ?_⟩
      have h2 := hrec.2
      simp [hok', htr]
      omega

/-- Claim **C3**: for every call to the resilient fetcher `fetchWithRetry` with
retry budget `r` (default 3 at the call sites) and base delay `d` (default
1000 ms), given any sequence `f` of upstream outcomes: (1) at most `r`
fetch attempts are made in total; (2) whenever the first `k` attempts are
retryable (transport error, 429 or 503) and attempt `k` (within the budget)
yields a non-transient response `s`, that response is returned to the caller
as-is — immediately when 2xx, without retry for any other non-2xx status —
with waits of exactly `d·2^0, …, d·2^(k−1)` ms (i.e. `d·2^i` after the
`i`-th attempt, before the next one) and `k + 1` attempts in total; (3) if
the whole budget is spent on retryable outcomes, an error is raised to the
caller: the transport error itself when the last attempt failed at transport
level, otherwise the max-retries error. -/
theorem fetchWithRetry_spec (f : Nat → AttemptOutcome) (r d : Nat) :
    (fetchWithRetry f r d 0).attempts ≤ r ∧
    (∀ k s, (∀ j, j < k → retryable (f j) = true) → k < r → f k = some s →
      retryable (some s) = false →
      fetchWithRetry f r d 0 =
        ⟨FetchOut.success s, (List.range k).map (fun t => d * 2 ^ t), k + 1⟩) ∧
    (1 ≤ r → (∀ j, j < r → retryable (f j) = true) →
      ((fetchWithRetry f r d 0).result =
        if f (r - 1) = none then FetchOut.raisedTransport
        else FetchOut.raisedMaxRetries) ∧
      (fetchWithRetry f r d 0).attempts = r) := by
  refine ⟨?_, ?_, ?_⟩
  · simpa using fwr_attempts_le f r d 0
  · intro k s hr hk hf hnr
    have h := fwr_characterize f r d k 0 s (fun j hj => by simpa using hr j hj)
      (by omega) (by simpa using hf) hnr
    simpa using h
  · intro hr1 hall
    have h := fwr_exhaust f r d hr1 (r - 1) 0 (by omega) (fun j _ hj => hall j hj)
    simpa using h

/-- Witness for `fetchWithRetry_spec`: a 429 on attempt 0 and a 200 on
attempt 1, with base delay 1000 ms and budget 3: the fetcher waits exactly
1000 ms, returns the 200 response, and uses 2 ≤ 3 attempts. -/
theorem fetchWithRetry_spec_witness :
    fetchWithRetry (fun j => if j = 0 then some 429 else some 200) 3 1000 0 =
      ⟨FetchOut.success 200, [1000], 2⟩ ∧
    (fetchWithRetry (fun j => if j = 0 then some 429 else some 200) 3 1000 0).attempts ≤ 3 := by
  refine ⟨?_, (fetchWithRetry_spec (fun j => if j = 0 then some 429 else some 200) 3 1000).1⟩
  have h := (fetchWithRetry_spec (fun j => if j = 0 then some 429 else some 200) 3 1000).2.1
    1 200 (by decide) (by decide) (by decide) (by decide)
  rw [h]
  decide

/-! ## Association-list map lemmas -/

lemma alookup_bump (m : List (String × Int)) (k q : String) (v : Int) :
    alookup (bump m k v) q = alookup m q + (if q = k then v else 0) := by
  induction m with
  | nil =>
    rcases eq_or_ne k q with h | h
    · subst h; simp [bump, alookup]
    · simp [bump, alookup, h, Ne.symm h]
  | cons kv rest ih =>
    obtain ⟨k', v'⟩ := kv
    rcases eq_or_ne k' k with h | h
    · subst h
      rcases eq_or_ne k' q with h2 | h2
      · subst h2; simp [bump, alookup]
      · simp [bump, alookup, h2, Ne.symm h2]
    · rcases eq_or_ne k' q with h2 | h2
      · subst h2
        simp [bump, alookup, h]
      · simp [bump, alookup, h, h2, ih]

lemma collectItemSales_eq_foldl (orders : List Order) :
    collectItemSales orders = (linesOf orders).foldl lineStep ([], 0) := by
  suffices h : ∀ acc, orders.foldl (fun acc o => (o.order_items.getD []).foldl lineStep acc) acc
      = (linesOf orders).foldl lineStep acc by
    simpa [collectItemSales] using h ([], 0)
  induction orders with
  | nil => intro acc; simp [linesOf]
  | cons o os ih =>
    intro acc
    have hl : linesOf (o :: os) = (o.order_items.getD []) ++ linesOf os := by
      simp [linesOf]
    rw [List.foldl_cons, hl, List.foldl_append]
    exact ih _

lemma alookup_foldl_lineStep (id : String) (hid : id ≠ "") :
    ∀ (lines : List OrderLine) (acc : List (String × Int) × Int),
      alookup (lines.foldl lineStep acc).1 id =
        alookup acc.1 id +
          ((lines.filter
              (fun l => l.itemId == some id && decide (0 < l.quantity.getD 0))).map
            (fun l => l.quantity.getD 0)).sum := by
  intro lines
  induction lines with
  | nil => intro acc; simp
  | cons l ls ih =>
    intro acc
    rcases hif : l.itemId with _ | i
    · -- missing item id: line is skipped by both the loop and the filter
      have hk : keptLine l = false := by simp [keptLine, hif]
      simp [lineStep, hk, ih, List.filter_cons, hif]
    · rcases eq_or_ne i id with h | h
      · subst h
        by_cases hq : 0 < l.quantity.getD 0
        · have hk : keptLine l = true := by
            simp [keptLine, hif]
            exact ⟨by simpa using hid, hq⟩
          have : (lineStep acc l).1 = bump acc.1 i (l.quantity.getD 0) := by
            simp [lineStep, hk, hif]
          simp [List.filter_cons, hif, hq, ih, this, alookup_bump]
          omega
        · have hk : keptLine l = false := by
            simp [keptLine, hif]
            intro _
            omega
          simp [lineStep, hk, ih, List.filter_cons, hif, hq]
      · -- a line for a different item id never touches `itemSales[id]`
        have hfilter : (l.itemId == some id && decide (0 < l.quantity.getD 0)) = false := by
          simp [hif, h]
        by_cases hk : keptLine l
        · have : (lineStep acc l).1 = bump acc.1 i (l.quantity.getD 0) := by
            simp [lineStep, hk, hif]
          simp [List.filter_cons, hfilter, ih, this, alookup_bump, Ne.symm h]
        · simp [lineStep, hk, ih, List.filter_cons, hfilter]

lemma alookup_aggBySku (resolve : String → Option String) (units : String → Int)
    (ids : List String) (s : String) :
    alookup (aggBySku resolve units ids) s =
      ((ids.filter (fun id => resolve id == some s)).map units).sum := by
  suffices h : ∀ acc, alookup (ids.foldl
      (fun acc id =>
        match resolve id with
        | some sku => bump acc sku (units id)
        | none => acc) acc) s =
      alookup acc s + ((ids.filter (fun id => resolve id == some s)).map units).sum by
    simpa [aggBySku, alookup] using h []
  induction ids with
  | nil => intro acc; simp
  | cons id rest ih =>
    intro acc
    rcases hres : resolve id with _ | sku
    · simp [List.filter_cons, hres, ih]
    · rcases eq_or_ne sku s with h | h
      · subst h
        simp [List.filter_cons, hres, ih, alookup_bump]
        omega
      · simp [List.filter_cons, hres, Ne.symm h, ih, alookup_bump, h]

/-- Claim **C8**: the first reconciliation pass maps each item id to the sum of
the quantities of exactly those order lines that reference it with a
strictly positive quantity (`orderItem.quantity || 0 > 0`); lines with a
missing (or empty, JS-falsy) item id or a non-positive quantity are
ignored. Stated for every non-empty id, over all orders of a run. -/
theorem itemSales_sums_quantities (orders : List Order) (id : String) (hid : id ≠ "") :
    alookup (collectItemSales orders).1 id =
      (((linesOf orders).filter
          (fun l => l.itemId == some id && decide (0 < l.quantity.getD 0))).map
        (fun l => l.quantity.getD 0)).sum := by
  rw [collectItemSales_eq_foldl]
  simpa [alookup] using alookup_foldl_lineStep id hid (linesOf orders) ([], 0)

/-- Witness for `itemSales_sums_quantities`: two orders referencing item
"X" with quantities 2 and 5 yield 7 in the itemId→quantity map. -/
theorem itemSales_sums_quantities_witness :
    alookup (collectItemSales
      [⟨some [⟨some "X", some 2⟩]⟩, ⟨some [⟨some "X", some 5⟩]⟩]).1 "X" = 7 := by
  rw [itemSales_sums_quantities
    [⟨some [⟨some "X", some 2⟩]⟩, ⟨some [⟨some "X", some 5⟩]⟩] "X" (by decide)]
  decide

/-- Claim **C7**: the SKU aggregation kernel of the second pass is a pure
associative accumulation: its value at every SKU is the sum of the units of
the item ids resolving to that SKU, and it is therefore invariant under any
permutation of the iteration order over the itemId map. -/
theorem skuAgg_order_independent (resolve : String → Option String)
    (units : String → Int) (l l' : List String) (hperm : l.Perm l') :
    (∀ s, alookup (aggBySku resolve units l) s =
      ((l.filter (fun id => resolve id == some s)).map units).sum) ∧
    (∀ s, alookup (aggBySku resolve units l) s = alookup (aggBySku resolve units l') s) := by
  refine ⟨fun s => alookup_aggBySku resolve units l s, fun s => ?_⟩
  rw [alookup_aggBySku, alookup_aggBySku]
  exact List.Perm.sum_eq (List.Perm.map units (List.Perm.filter _ hperm))

/-- Witness for `skuAgg_order_independent`: two distinct item ids sharing
SKU "ABC" with units 3 and 4 aggregate to exactly 7, in either processing
order. -/
theorem skuAgg_order_independent_witness :
    alookup (aggBySku (fun _ => some "ABC")
      (fun id => if id = "a" then 3 else 4) ["a", "b"]) "ABC" = 7 ∧
    alookup (aggBySku (fun _ => some "ABC")
        (fun id => if id = "a" then 3 else 4) ["a", "b"]) "ABC" =
      alookup (aggBySku (fun _ => some "ABC")
        (fun id => if id = "a" then 3 else 4) ["b", "a"]) "ABC" := by
  have hperm : (["a", "b"] : List String).Perm ["b", "a"] := by decide
  constructor
  · rw [(skuAgg_order_independent (fun _ => some "ABC")
      (fun id => if id = "a" then 3 else 4) ["a", "b"] ["b", "a"] hperm).1 "ABC"]
    decide
  · exact (skuAgg_order_independent (fun _ => some "ABC")
      (fun id => if id = "a" then 3 else 4) ["a", "b"] ["b", "a"] hperm).2 "ABC"

/-- Claim **C10**: a request to the products or sales route without the
`meli_access_token` cookie is answered with the 401 `No autenticado` error
body, the upstream request trace is empty (no upstream API call is made),
and no data is accumulated — for every query parameter and every upstream
behaviour. -/
theorem routes_unauthenticated_401 :
    (∀ qOffset qLimit u, productsRoute none qOffset qLimit u = (ProductsOut.noAuth, [])) ∧
    (∀ u, salesRoute none u = (SalesOut.noAuth, [])) ∧
    (∀ u, salesRoutePlain none u = (SalesOut.noAuth, [])) :=
  ⟨fun _ _ _ => rfl, fun _ => rfl, fun _ => rfl⟩

/-- Counterexample to **C4**: for a resolved item whose attribute list has
no SELLER_SKU entry, the catalog pipeline emits a `null` SKU (not a
sentinel value), the sales aggregation keys the item under `'SIN-SKU'`,
and the dashboard render join uses `'-'` — three divergent treatments, so
no single well-defined sentinel is shared by the aggregation passes. -/
theorem sku_sentinel_divergence :
    productSku [] = none ∧
    (mkApiProduct
      ⟨"MLA1", "t", 0, 0, none, "active", "p", none, none, none, some []⟩).sku = none ∧
    salesSku [] = "SIN-SKU" ∧
    getSellerSKU (some []) = "-" ∧
    ("SIN-SKU" : String) ≠ "-" := by
  refine ⟨rfl, rfl, rfl, rfl, by decide⟩

/-- Claim **C4 as amended**: the two sales-route variants normalize an absent
SELLER_SKU consistently to the `'SIN-SKU'` sentinel within the sales
aggregation, but the catalog (products) pipeline leaves the SKU `null` and
the dashboard render-time join uses the distinct `'-'` marker (mapped to
zero sales); the three passes do not share one sentinel, so the claimed
single central normalization does not exist. -/
theorem sku_sentinel_amended (attrs : List MeliAttribute)
    (h : findSellerSku attrs = none)
    (dattrs : List DashAttribute)
    (hd : dattrs.find? (fun attr => attr.id == "SELLER_SKU") = none)
    (m : List (String × Int)) :
    salesSku attrs = "SIN-SKU" ∧
    productSku attrs = none ∧
    getSellerSKU (some dattrs) = "-" ∧
    getSalesBySKU m (getSellerSKU (some dattrs)) = 0 := by
  have hdash : getSellerSKU (some dattrs) = "-" := by
    rcases dattrs with _ | ⟨a, rest⟩
    · rfl
    · simp [getSellerSKU, hd]
  refine ⟨?_, ?_, hdash, ?_⟩
  · simp [salesSku, h, strOr]
  · simp [productSku, h, strOrNull]
  · rw [hdash]; rfl

/-- Witness for `sku_sentinel_amended` at an empty attribute list and a
sales map that does contain the `'SIN-SKU'` key. -/
theorem sku_sentinel_amended_witness :
    salesSku [] = "SIN-SKU" ∧
    productSku [] = none ∧
    getSellerSKU (some []) = "-" ∧
    getSalesBySKU [("SIN-SKU", 5)] (getSellerSKU (some [])) = 0 :=
  sku_sentinel_amended [] (by decide) [] (by decide) [("SIN-SKU", 5)]

/-! ## Batch-size invariants -/

lemma productBatches_batch_le (bout : Nat → BatchOutcome) :
    ∀ (n : Nat) (remaining : List String), remaining.length ≤ n → ∀ k b,
      b ∈ (productBatches bout k remaining).2.1 → b.length ≤ 20 := by
  intro n
  induction n with
  | zero =>
    intro remaining hn k b hb
    rcases remaining with _ | ⟨x, xs⟩
    · rw [productBatches] at hb; simp at hb
    · simp at hn
  | succ n ih =>
    intro remaining hn k b hb
    rcases remaining with _ | ⟨x, xs⟩
    · rw [productBatches] at hb; simp at hb
    · rw [productBatches] at hb
      rcases hbk : bout k with _ | ⟨s, entries⟩ <;> rw [hbk] at hb <;> simp at hb
      · subst hb; simp [List.length_take]
      · rcases hb with rfl | h
        · simp [List.length_take]
        · exact ih ((x :: xs).drop 20) (by simp at hn ⊢; omega) (k + 1) b h

lemma skuPassAux_batch_le (bout : Nat → BatchOutcome) (itemSales : List (String × Int)) :
    ∀ (n : Nat) (remaining : List String), remaining.length ≤ n → ∀ k acc b,
      b ∈ (skuPassAux bout itemSales k remaining acc).2 → b.length ≤ 20 := by
  intro n
  induction n with
  | zero =>
    intro remaining hn k acc b hb
    rcases remaining with _ | ⟨x, xs⟩
    · rw [skuPassAux] at hb; simp at hb
    · simp at hn
  | succ n ih =>
    intro remaining hn k acc b hb
    rcases remaining with _ | ⟨x, xs⟩
    · rw [skuPassAux] at hb; simp at hb
    · rw [skuPassAux] at hb
      simp at hb
      rcases hb with rfl | h
      · simp [List.length_take]
      · exact ih ((x :: xs).drop 20) (by simp at hn ⊢; omega) (k + 1) _ b h

lemma skuPassPlainAux_batch_le (bout : Nat → BatchOutcome) (itemSales : List (String × Int)) :
    ∀ (n : Nat) (remaining : List String), remaining.length ≤ n → ∀ k acc b,
      b ∈ (skuPassPlainAux bout itemSales k remaining acc).2 → b.length ≤ 20 := by
  intro n
  induction n with
  | zero =>
    intro remaining hn k acc b hb
    rcases remaining with _ | ⟨x, xs⟩
    · rw [skuPassPlainAux] at hb; simp at hb
    · simp at hn
  | succ n ih =>
    intro remaining hn k acc b hb
    rcases remaining with _ | ⟨x, xs⟩
    · rw [skuPassPlainAux] at hb; simp at hb
    · rw [skuPassPlainAux] at hb
      rcases hbk : bout k with _ | ⟨s, entries⟩ <;> rw [hbk] at hb <;> simp at hb
      · subst hb; simp [List.length_take]
      · rcases hb with rfl | h
        · simp [List.length_take]
        · exact ih ((x :: xs).drop 20) (by simp at hn ⊢; omega) (k + 1) _ b h

/-- Counterexample to **C9**: the products route forwards a caller-supplied
`limit` to the upstream listing search unmodified — with `?limit=100` the
issued search request carries limit 100, which exceeds the upstream cap of
50. (The claim is universally quantified over caller-supplied pagination
parameters.) -/
theorem listing_limit_uncapped :
    (productsRoute (some "t") none (some 100)
        { userOutcome := some 200, searchOutcome := some (200, [], 0),
          batches := fun _ => BatchOutcome.resp 200 [] }).2 =
      [UpReq.userinfo, UpReq.search 0 100] ∧ ¬ (100 ≤ 50) := by
  constructor
  · simp [productsRoute, isOkStatus, productBatches]
  · decide


lemma productsRoute_req_mem (token : Option String) (qO qL : Option Nat)
    (u : ProductsUpstream) (req : UpReq)
    (h : req ∈ (productsRoute token qO qL u).2) :
    req = UpReq.userinfo ∨ req = UpReq.search (qO.getD 0) (qL.getD 50) ∨
    ∃ ids, req = UpReq.itemsBatch ids ∧ ids.length ≤ 20 := by
  rcases token with _ | t
  · simp [productsRoute] at h
  rcases hu : u.userOutcome with _ | s
  · simp [productsRoute, hu] at h
    exact Or.inl h
  by_cases hok : isOkStatus s
  · rcases hs : u.searchOutcome with _ | ⟨s', sids, total⟩
    · simp [productsRoute, hu, hok, hs] at h
      rcases h with h | h
      · exact Or.inl h
      · exact Or.inr (Or.inl h)
    · by_cases hok2 : isOkStatus s'
      · by_cases hb2 : (productBatches u.batches 0 sids).2.2
        · simp [productsRoute, hu, hok, hs, hok2, hb2] at h
          rcases h with h | h | ⟨b, hb, hreq⟩
          · exact Or.inl h
          · exact Or.inr (Or.inl h)
          · exact Or.inr (Or.inr ⟨b, hreq.symm,
              productBatches_batch_le u.batches sids.length sids le_rfl 0 b hb⟩)
        · simp [productsRoute, hu, hok, hs, hok2, hb2] at h
          rcases h with h | h | ⟨b, hb, hreq⟩
          · exact Or.inl h
          · exact Or.inr (Or.inl h)
          · exact Or.inr (Or.inr ⟨b, hreq.symm,
              productBatches_batch_le u.batches sids.length sids le_rfl 0 b hb⟩)
      · simp [productsRoute, hu, hok, hs, hok2] at h
        rcases h with h | h
        · exact Or.inl h
        · exact Or.inr (Or.inl h)
  · by_cases h401 : s = 401
    · subst h401
      simp [productsRoute, hu, hok] at h
      exact Or.inl h
    · simp [productsRoute, hu, hok, h401] at h
      exact Or.inl h

lemma salesRoute_req_mem (token : Option String) (u : SalesUpstream) (req : UpReq)
    (h : req ∈ (salesRoute token u).2) :
    req = UpReq.userinfo ∨ (∃ o, req = UpReq.ordersPage o 50) ∨
    ∃ ids, req = UpReq.itemsBatch ids ∧ ids.length ≤ 20 := by
  rcases token with _ | t
  · simp [salesRoute] at h
  rcases hu : u.userOutcome with _ | s
  · simp [salesRoute, hu] at h
    exact Or.inl h
  by_cases hok : isOkStatus s
  · simp [salesRoute, hu, hok] at h
    rcases h with h | ⟨o, _, hreq⟩ | ⟨b, hb, hreq⟩
    · exact Or.inl h
    · exact Or.inr (Or.inl ⟨o, hreq.symm⟩)
    · exact Or.inr (Or.inr ⟨b, hreq.symm,
        skuPassAux_batch_le u.batches _ _ _ le_rfl 0 _ b hb⟩)
  · simp [salesRoute, hu, hok] at h
    exact Or.inl h

lemma salesRoutePlain_req_mem (token : Option String) (u : SalesUpstream) (req : UpReq)
    (h : req ∈ (salesRoutePlain token u).2) :
    req = UpReq.userinfo ∨ (∃ o, req = UpReq.ordersPage o 50) ∨
    ∃ ids, req = UpReq.itemsBatch ids ∧ ids.length ≤ 20 := by
  rcases token with _ | t
  · simp [salesRoutePlain] at h
  rcases hu : u.userOutcome with _ | s
  · simp [salesRoutePlain, hu] at h
    exact Or.inl h
  by_cases hok : isOkStatus s
  · by_cases hthrew : (collectOrders u.pages 0 0).stop = StopCause.threwStop
    · simp [salesRoutePlain, hu, hok, hthrew] at h
      rcases h with h | ⟨o, _, hreq⟩
      · exact Or.inl h
      · exact Or.inr (Or.inl ⟨o, hreq.symm⟩)
    · rcases hpass : (skuPassPlainAux u.batches
          (collectItemSales (collectOrders u.pages 0 0).orders).1 0
          ((collectItemSales (collectOrders u.pages 0 0).orders).1.map
            (fun kv => kv.1)) ([], 0)).1 with _ | acc
      · simp [salesRoutePlain, hu, hok, hthrew, hpass] at h
        rcases h with h | ⟨o, _, hreq⟩ | ⟨b, hb, hreq⟩
        · exact Or.inl h
        · exact Or.inr (Or.inl ⟨o, hreq.symm⟩)
        · exact Or.inr (Or.inr ⟨b, hreq.symm,
            skuPassPlainAux_batch_le u.batches _ _ _ le_rfl 0 _ b hb⟩)
      · simp [salesRoutePlain, hu, hok, hthrew, hpass] at h
        rcases h with h | ⟨o, _, hreq⟩ | ⟨b, hb, hreq⟩
        · exact Or.inl h
        · exact Or.inr (Or.inl ⟨o, hreq.symm⟩)
        · exact Or.inr (Or.inr ⟨b, hreq.symm,
            skuPassPlainAux_batch_le u.batches _ _ _ le_rfl 0 _ b hb⟩)
  · simp [salesRoutePlain, hu, hok] at h
    exact Or.inl h

/-- Claim **C9 as amended**: every multi-item detail lookup issued by any of the
three pipelines carries at most 20 ids, and the sales pipelines always
request order pages with limit 50; the products listing request uses limit
50 only by default — a caller-supplied `limit` is forwarded to the
upstream search unmodified (`qLimit.getD 50`), not clamped to the 50 cap
(the in-repo caller, the dashboard, always passes 50). -/
theorem upstream_caps_amended (token : Option String) (qOffset qLimit : Option Nat)
    (u : ProductsUpstream) (us : SalesUpstream) :
    (∀ ids, UpReq.itemsBatch ids ∈ (productsRoute token qOffset qLimit u).2 →
      ids.length ≤ 20) ∧
    (∀ ids, UpReq.itemsBatch ids ∈ (salesRoute token us).2 → ids.length ≤ 20) ∧
    (∀ ids, UpReq.itemsBatch ids ∈ (salesRoutePlain token us).2 → ids.length ≤ 20) ∧
    (∀ off lim, UpReq.ordersPage off lim ∈ (salesRoute token us).2 → lim = 50) ∧
    (∀ off lim, UpReq.ordersPage off lim ∈ (salesRoutePlain token us).2 → lim = 50) ∧
    (∀ off lim, UpReq.search off lim ∈ (productsRoute token qOffset qLimit u).2 →
      lim = qLimit.getD 50) := by
  refine ⟨?_, ?_, ?_, ?_, ?_, ?_⟩
  · intro ids hmem
    rcases productsRoute_req_mem token qOffset qLimit u _ hmem with h | h | ⟨ids', h, hlen⟩
    · exact absurd h (by simp)
    · exact absurd h (by simp)
    · obtain rfl : ids = ids' := by injection h
      exact hlen
  · intro ids hmem
    rcases salesRoute_req_mem token us _ hmem with h | ⟨o, h⟩ | ⟨ids', h, hlen⟩
    · exact absurd h (by simp)
    · exact absurd h (by simp)
    · obtain rfl : ids = ids' := by injection h
      exact hlen
  · intro ids hmem
    rcases salesRoutePlain_req_mem token us _ hmem with h | ⟨o, h⟩ | ⟨ids', h, hlen⟩
    · exact absurd h (by simp)
    · exact absurd h (by simp)
    · obtain rfl : ids = ids' := by injection h
      exact hlen
  · intro off lim hmem
    rcases salesRoute_req_mem token us _ hmem with h | ⟨o, h⟩ | ⟨ids', h, _⟩
    · exact absurd h (by simp)
    · injection h with h1 h2
    · exact absurd h (by simp)
  · intro off lim hmem
    rcases salesRoutePlain_req_mem token us _ hmem with h | ⟨o, h⟩ | ⟨ids', h, _⟩
    · exact absurd h (by simp)
    · injection h with h1 h2
    · exact absurd h (by simp)
  · intro off lim hmem
    rcases productsRoute_req_mem token qOffset qLimit u _ hmem with h | h | ⟨ids', h, _⟩
    · exact absurd h (by simp)
    · injection h with h1 h2
    · exact absurd h (by simp)

/-- Witness for `upstream_caps_amended`: a concrete products run whose
detail batch carries 2 ≤ 20 ids, and a concrete sales run whose order page
request uses limit 50; the products search request carries the default
limit 50 when the caller supplies none. -/
theorem upstream_caps_amended_witness :
    (["i1", "i2"] : List String).length ≤ 20 ∧ (50 : Nat) = 50 ∧
    (50 : Nat) = (none : Option Nat).getD 50 := by
  have h := upstream_caps_amended (some "t") none none
    { userOutcome := some 200, searchOutcome := some (200, ["i1", "i2"], 2),
      batches := fun _ => BatchOutcome.resp 200 [] }
    { userOutcome := some 200, pages := fun _ => PageOutcome.resp 200 [] 0,
      batches := fun _ => BatchOutcome.resp 200 [] }
  refine ⟨?_, ?_, ?_⟩
  · refine h.1 ["i1", "i2"] ?_
    simp [productsRoute, isOkStatus, productBatches]
  · refine h.2.2.2.1 0 50 ?_
    simp [salesRoute, isOkStatus, collectOrdersRetry, collectItemSales, skuPassAux]
  · refine h.2.2.2.2.2 0 50 ?_
    simp [productsRoute, isOkStatus, productBatches]

/-! ## Detail hydration: per-entry sub-status filtering -/

lemma filter_code200_split (l : List DetailEntry) :
    (l.filter (fun e => e.code == 200)).length +
      (l.filter (fun e => !(e.code == 200))).length = l.length := by
  induction l with
  | nil => simp
  | cons e rest ih =>
    by_cases h : e.code = 200 <;> simp [List.filter_cons, h] <;> omega

lemma filterMap_entryProduct_length (entries : List DetailEntry)
    (hwf : ∀ e ∈ entries, e.body.isSome ↔ e.code = 200) :
    (entries.filterMap entryProduct).length =
      (entries.filter (fun e => e.code == 200)).length := by
  induction entries with
  | nil => simp
  | cons e rest ih =>
    have hrest := ih (fun e' he' => hwf e' (List.mem_cons_of_mem e he'))
    have he := hwf e (List.mem_cons_self e rest)
    by_cases h : e.code = 200
    · obtain ⟨b, hbody⟩ := Option.isSome_iff_exists.mp (he.mpr h)
      simp [List.filterMap_cons, List.filter_cons, entryProduct, h, hbody, hrest]
    · have hnone : entryProduct e = none := by simp [entryProduct, h]
      simp [List.filterMap_cons, List.filter_cons, hnone, h, hrest]

lemma productBatches_cons_ok (bout : Nat → BatchOutcome) (k : Nat) (x : String)
    (xs : List String) (entries : List DetailEntry)
    (hb : bout k = BatchOutcome.resp 200 entries) :
    productBatches bout k (x :: xs) =
      (entries.filterMap entryProduct ++
        (productBatches bout (k + 1) ((x :: xs).drop 20)).1,
       (x :: xs).take 20 :: (productBatches bout (k + 1) ((x :: xs).drop 20)).2.1,
       (productBatches bout (k + 1) ((x :: xs).drop 20)).2.2) := by
  rw [productBatches, hb]
  simp [isOkStatus]

lemma productBatches_all_ok (bout : Nat → BatchOutcome) (es : Nat → List DetailEntry)
    (hb : ∀ j, bout j = BatchOutcome.resp 200 (es j)) :
    ∀ (n : Nat) (remaining : List String), remaining.length ≤ n → ∀ k,
      (productBatches bout k remaining).1 =
        (((List.range ((remaining.length + 19) / 20)).map (fun i => es (k + i))).flatten).filterMap
          entryProduct ∧
      (productBatches bout k remaining).2.2 = false := by
  have hr : ∀ (k m : Nat),
      ((List.range (m + 1)).map (fun i => es (k + i))).flatten
        = es k ++ ((List.range m).map (fun i => es (k + 1 + i))).flatten := by
    intro k m
    rw [List.range_succ_eq_map]
    simp only [List.map_cons, Nat.add_zero, List.map_map, List.flatten_cons]
    congr 2
    apply List.map_congr_left
    intro a _
    simp [Function.comp]
    congr 1
    omega
  intro n
  induction n with
  | zero =>
    intro remaining hn k
    rcases remaining with _ | ⟨x, xs⟩
    · rw [productBatches]; simp
    · simp at hn
  | succ n ih =>
    intro remaining hn k
    rcases remaining with _ | ⟨x, xs⟩
    · rw [productBatches]; simp
    · have hlen : ((x :: xs).drop 20).length ≤ n := by
        simp at hn ⊢; omega
      have hrec := ih ((x :: xs).drop 20) hlen (k + 1)
      have hsplit : ((x :: xs).length + 19) / 20
          = (((x :: xs).drop 20).length + 19) / 20 + 1 := by
        simp [List.length_drop]
        omega
      rw [productBatches_cons_ok bout k x xs (es k) (hb k)]
      constructor
      · show (es k).filterMap entryProduct ++
            (productBatches bout (k + 1) ((x :: xs).drop 20)).1 = _
        rw [hsplit, hr k, List.filterMap_append, hrec.1]
      · exact hrec.2

/-- Claim **C6**: on a 200 multi-get batch response, every per-id entry with a
non-200 sub-status (and every body-less entry) is skipped without counting
as a page failure — the products route has no failure counter and the loop
continues through all batches without aborting — and the hydrated output
consists of exactly the code-200 entries. When the upstream is
well-formed (an entry carries a body iff its sub-status is 200, and the
batches return one entry per requested id), the hydrated count equals the
count of code-200 entries, and the gap `intended − hydrated` — observable
from the payload, which carries the hydrated product list alongside
`total`/`offset`/`limit` — equals the number of non-200 entries. -/
theorem detail_substatus_skipped (token : String) (qO qL : Option Nat)
    (ids : List String) (total : Nat) (es : Nat → List DetailEntry)
    (u : ProductsUpstream)
    (hu : u.userOutcome = some 200)
    (hs : u.searchOutcome = some (200, ids, total))
    (hb : ∀ j, u.batches j = BatchOutcome.resp 200 (es j))
    (hwf : ∀ j, ∀ e ∈ es j, e.body.isSome ↔ e.code = 200)
    (hcount :
      (((List.range ((ids.length + 19) / 20)).map (fun i => es i)).flatten).length
        = ids.length) :
    (∀ (bout : Nat → BatchOutcome) (k : Nat) (x : String) (xs : List String)
      (entries : List DetailEntry), bout k = BatchOutcome.resp 200 entries →
      productBatches bout k (x :: xs) =
        (entries.filterMap entryProduct ++
          (productBatches bout (k + 1) ((x :: xs).drop 20)).1,
         (x :: xs).take 20 :: (productBatches bout (k + 1) ((x :: xs).drop 20)).2.1,
         (productBatches bout (k + 1) ((x :: xs).drop 20)).2.2)) ∧
    ∃ prods,
      productsRoute (some token) qO qL u =
        (ProductsOut.payload ⟨prods, total, qO.getD 0, qL.getD 50⟩,
         UpReq.userinfo :: UpReq.search (qO.getD 0) (qL.getD 50) ::
           (productBatches u.batches 0 ids).2.1.map UpReq.itemsBatch) ∧
      prods = (((List.range ((ids.length + 19) / 20)).map (fun i => es i)).flatten).filterMap
        entryProduct ∧
      prods.length =
        ((((List.range ((ids.length + 19) / 20)).map (fun i => es i)).flatten).filter
          (fun e => e.code == 200)).length ∧
      ids.length - prods.length =
        ((((List.range ((ids.length + 19) / 20)).map (fun i => es i)).flatten).filter
          (fun e => !(e.code == 200))).length := by
  have hall := productBatches_all_ok u.batches es hb ids.length ids le_rfl 0
  have hzero :
      ((List.range ((ids.length + 19) / 20)).map (fun i => es (0 + i)))
        = ((List.range ((ids.length + 19) / 20)).map (fun i => es i)) := by
    apply List.map_congr_left
    intro a _
    simp
  rw [hzero] at hall
  set flat := (((List.range ((ids.length + 19) / 20)).map (fun i => es i)).flatten)
    with hflat
  have hwf' : ∀ e ∈ flat, e.body.isSome ↔ e.code = 200 := by
    intro e he
    rw [hflat] at he
    simp only [List.mem_flatten, List.mem_map] at he
    obtain ⟨l, ⟨j, _, rfl⟩, hel⟩ := he
    exact hwf j e hel
  have hlen : (flat.filterMap entryProduct).length
      = (flat.filter (fun e => e.code == 200)).length :=
    filterMap_entryProduct_length flat hwf'
  refine ⟨fun bout k x xs entries hbk => productBatches_cons_ok bout k x xs entries hbk,
    flat.filterMap entryProduct, ?_, rfl, hlen, ?_⟩
  · simp [productsRoute, hu, hs, isOkStatus, hall.2, hall.1]
  · rw [hlen]
    have := filter_code200_split flat
    omega

/-- Witness for `detail_substatus_skipped`: a single batch of 20 ids whose
response has 3 entries with a non-200 sub-status hydrates exactly 17
products, and the intended−hydrated gap is 3. -/
theorem detail_substatus_skipped_witness :
    ∃ prods : List ApiProduct,
      (productsRoute (some "t") none none
        { userOutcome := some 200,
          searchOutcome := some (200, List.replicate 20 "x", 20),
          batches := fun _ => BatchOutcome.resp 200 demoEntries }).1 =
        ProductsOut.payload ⟨prods, 20, 0, 50⟩ ∧
      prods.length = 17 ∧ (20 : Nat) - prods.length = 3 := by
  obtain ⟨-, prods, h1, _, h3, _⟩ := detail_substatus_skipped "t" none none
    (List.replicate 20 "x") 20 (fun _ => demoEntries)
    { userOutcome := some 200,
      searchOutcome := some (200, List.replicate 20 "x", 20),
      batches := fun _ => BatchOutcome.resp 200 demoEntries }
    rfl rfl (fun _ => rfl)
    (by
      intro j
      show ∀ e ∈ demoEntries, e.body.isSome = true ↔ e.code = 200
      decide)
    (by decide)
  have hp : prods.length = 17 := by rw [h3]; decide
  refine ⟨prods, ?_, hp, ?_⟩
  · rw [h1]; rfl
  · rw [hp]

/-! ## Pagination arithmetic -/

lemma sum_min_pages : ∀ (B N : Nat), N ≤ 50 * B →
    ((List.range B).map (fun i => min 50 (N - 50 * i))).sum = N := by
  intro B
  induction B with
  | zero => intro N h; simp at h ⊢; omega
  | succ B ih =>
    intro N h
    rw [List.range_succ_eq_map]
    simp only [List.map_cons, List.map_map, List.sum_cons, Nat.mul_zero, Nat.sub_zero]
    have hmap : (List.range B).map ((fun i => min 50 (N - 50 * i)) ∘ Nat.succ)
        = (List.range B).map (fun i => min 50 ((N - 50) - 50 * i)) := by
      apply List.map_congr_left
      intro a _
      simp [Function.comp]
      omega
    rw [hmap, ih (N - 50) (by omega)]
    omega

lemma collectOrders_std (N : Nat) (hN2 : N ≤ 2000) :
    ∀ (m k : Nat), N - 50 * k ≤ m → 50 * k < N →
      (collectOrders (stdPages N) k (50 * k)).orders.length = N - 50 * k ∧
      (collectOrders (stdPages N) k (50 * k)).offsets =
        (List.range ((N - 50 * k + 49) / 50)).map (fun i => 50 * (k + i)) ∧
      (collectOrders (stdPages N) k (50 * k)).stop =
        (if 1950 < N then StopCause.safetyStop else StopCause.completeStop) := by
  intro m
  induction m with
  | zero => intro k hm hk; omega
  | succ m ih =>
    intro k hm hk
    rw [collectOrders]
    simp only [stdPages]
    by_cases hsafe : 50 * k + 50 ≥ 2000
    · have hr : min 50 (N - 50 * k) = N - 50 * k := by omega
      have hone : (N - 50 * k + 49) / 50 = 1 := by omega
      have hbig : 1950 < N := by omega
      simp [isOkStatus, hsafe, hr, hone, hbig]
      simp [List.range_succ]
    · by_cases hmore : 50 * k + 50 < N
      · have hr : min 50 (N - 50 * k) = 50 := by omega
        have hne : (List.replicate (min 50 (N - 50 * k)) (⟨some []⟩ : Order)) ≠ [] := by
          rw [hr]; simp
        have h50 : 50 * (k + 1) = 50 * k + 50 := by ring
        have hrec := ih (k + 1) (by omega) (by omega)
        rw [h50] at hrec
        have hcnt : (N - 50 * k + 49) / 50 = (N - (50 * k + 50) + 49) / 50 + 1 := by omega
        have hroff :
            (List.range ((N - 50 * k + 49) / 50)).map (fun i => 50 * (k + i)) =
              50 * k :: (List.range ((N - (50 * k + 50) + 49) / 50)).map
                (fun i => 50 * (k + 1 + i)) := by
          rw [hcnt, List.range_succ_eq_map]
          simp only [List.map_cons, Nat.add_zero, List.map_map]
          congr 1
          apply List.map_congr_left
          intro a _
          simp [Function.comp]
          omega
        have hcond : 50 * k + 50 < N ∧
            List.replicate (min 50 (N - 50 * k)) (⟨some []⟩ : Order) ≠ [] := ⟨hmore, hne⟩
        simp only [isOkStatus]
        rw [dif_neg hsafe, if_pos hcond]
        refine ⟨?_, ?_, hrec.2.2⟩
        · simp [hr, hrec.1]
          omega
        · rw [hroff]
          show 50 * k :: (collectOrders (stdPages N) (k + 1) (50 * k + 50)).offsets = _
          rw [hrec.2.1]
      · have hr : min 50 (N - 50 * k) = N - 50 * k := by omega
        have hone : (N - 50 * k + 49) / 50 = 1 := by omega
        have hsmall : ¬ 1950 < N := by omega
        simp [isOkStatus, hsafe, hmore, hr, hone, hsmall]
        simp [List.range_succ]

/-- Counterexample to **C5**: for declared total N = 0 the plain collector
still issues one probe page request (it must fetch a page to learn the
total), while ⌈N/P⌉ = ⌈0/50⌉ = 0; the dashboard collector likewise issues
its initial request. The claim, quantified over *every* declared total,
fails at N = 0. -/
theorem pagination_zero_total_counterexample :
    (collectOrders (stdPages 0) 0 0).offsets.length = 1 ∧ (0 + 49) / 50 = 0 ∧
    (fetchProductsRun (fun off => min 50 (0 - off)) 0).1.length = 1 := by
  refine ⟨?_, by decide, by decide⟩
  simp [collectOrders, stdPages, isOkStatus]

/-- Claim **C5 as amended**: for page size 50 and every declared total `N` with
`1 ≤ N ≤ 2000` (the safety ceiling), with the upstream returning
`min(50, N − offset)` results per page, the order collector issues exactly
`⌈N/50⌉` page requests at offsets `0, 50, 100, …` and accumulates exactly
`N` records, reaching `complete` precisely when the last page stays below
the 2000-offset safety break (`N ≤ 1950`); the dashboard products
collector issues the same offsets and accumulates `N` products. For
`N = 0` a single probe request is still issued (counterexample), and above
the ceiling collection stops early. -/
theorem pagination_page_count_amended (N : Nat) (h1 : 1 ≤ N) (h2 : N ≤ 2000) :
    ((collectOrders (stdPages N) 0 0).offsets =
      (List.range ((N + 49) / 50)).map (fun i => 50 * i) ∧
     (collectOrders (stdPages N) 0 0).offsets.length = (N + 49) / 50 ∧
     (collectOrders (stdPages N) 0 0).orders.length = N ∧
     ((collectOrders (stdPages N) 0 0).stop = StopCause.completeStop ↔ N ≤ 1950)) ∧
    (fetchProductsRun (fun off => min 50 (N - off)) N).1 =
      (List.range ((N + 49) / 50)).map (fun i => 50 * i) ∧
    (fetchProductsRun (fun off => min 50 (N - off)) N).2 = N := by
  have hstd := collectOrders_std N h2 N 0 (by omega) (by omega)
  have hzero : (50 : Nat) * 0 = 0 := by norm_num
  rw [hzero] at hstd
  have hsub : N - 0 = N := by omega
  rw [hsub] at hstd
  have hoff : (collectOrders (stdPages N) 0 0).offsets =
      (List.range ((N + 49) / 50)).map (fun i => 50 * i) := by
    rw [hstd.2.1]
    apply List.map_congr_left
    intro a _
    omega
  have hB : 1 ≤ (N + 49) / 50 := by omega
  refine ⟨⟨hoff, ?_, hstd.1, ?_⟩, ?_, ?_⟩
  · rw [hoff]; simp
  · rw [hstd.2.2]
    constructor
    · intro h
      by_contra hc
      simp [show 1950 < N by omega] at h
    · intro h
      simp [show ¬ 1950 < N by omega]
  · obtain ⟨B, hBeq⟩ : ∃ B, (N + 49) / 50 = B + 1 :=
      ⟨(N + 49) / 50 - 1, by omega⟩
    simp only [fetchProductsRun, hBeq, List.range_succ_eq_map, List.drop_succ_cons,
      List.drop_zero]
    simp
  · obtain ⟨B, hBeq⟩ : ∃ B, (N + 49) / 50 = B + 1 :=
      ⟨(N + 49) / 50 - 1, by omega⟩
    have hle : N ≤ 50 * (B + 1) := by omega
    have hs := sum_min_pages (B + 1) N hle
    rw [List.range_succ_eq_map] at hs
    simp only [List.map_cons, List.sum_cons, Nat.mul_zero, Nat.sub_zero,
      List.map_map] at hs
    simp only [fetchProductsRun, hBeq, List.range_succ_eq_map, List.drop_succ_cons,
      List.drop_zero, List.map_map, Nat.sub_zero]
    exact hs

/-- Witness for `pagination_page_count_amended`: with total 120 and page
size 50, the collector issues exactly 3 page requests at offsets 0, 50,
100 and finishes `complete` with exactly 120 accumulated records; the
dashboard collector issues the same requests and accumulates 120
products. -/
theorem pagination_page_count_amended_witness :
    (collectOrders (stdPages 120) 0 0).offsets = [0, 50, 100] ∧
    (collectOrders (stdPages 120) 0 0).orders.length = 120 ∧
    (collectOrders (stdPages 120) 0 0).stop = StopCause.completeStop ∧
    (fetchProductsRun (fun off => min 50 (120 - off)) 120).1 = [0, 50, 100] ∧
    (fetchProductsRun (fun off => min 50 (120 - off)) 120).2 = 120 := by
  have h := pagination_page_count_amended 120 (by decide) (by decide)
  refine ⟨?_, h.1.2.2.1, h.1.2.2.2.mpr (by decide), ?_, h.2.2⟩
  · rw [h.1.1]; decide
  · rw [h.2.1]; decide

/-- Counterexample to **C2**: a sales run that stops at the
consecutive-failure threshold after one good page (50 orders of a declared
5000) returns *exactly the same* 200 payload as a fully-complete run over a
declared total of 50 — the response carries no terminal status tag, so the
caller receives the accumulated subset presented as a complete result. -/
theorem partial_not_tagged_counterexample :
    (collectOrdersRetry
      (fun n => if n = 0
        then PageOutcome.resp 200 (List.replicate 50 ⟨none⟩) 5000
        else PageOutcome.resp 500 [] 0) 0 0 0).stop = StopCause.failStop ∧
    (collectOrdersRetry
      (fun _ => PageOutcome.resp 200 (List.replicate 50 ⟨none⟩) 50) 0 0 0).stop
        = StopCause.completeStop ∧
    (salesRoute (some "t")
      { userOutcome := some 200,
        pages := fun n => if n = 0
          then PageOutcome.resp 200 (List.replicate 50 ⟨none⟩) 5000
          else PageOutcome.resp 500 [] 0,
        batches := fun _ => BatchOutcome.resp 200 [] }).1 =
    (salesRoute (some "t")
      { userOutcome := some 200,
        pages := fun _ => PageOutcome.resp 200 (List.replicate 50 ⟨none⟩) 50,
        batches := fun _ => BatchOutcome.resp 200 [] }).1 := by
  refine ⟨?_, ?_, ?_⟩
  · simp [collectOrdersRetry, isOkStatus]
  · simp [collectOrdersRetry, isOkStatus]
  · simp [salesRoute, collectOrdersRetry, isOkStatus, collectItemSales, lineStep,
      keptLine, skuPassAux]

/-- Claim **C2 as amended**: the sales response carries no terminal status tag at
all: it is a function of the accumulated orders and the SKU-batch outcomes
alone. Two runs with equal accumulated orders and equal batch behaviour
return equal 200 payloads even when one stopped early (failure threshold or
safety ceiling) and the other completed, so early termination is *not*
reported to the caller and a partial subset is indistinguishable from a
complete result. -/
theorem sales_response_untagged_amended (token : String) (u u' : SalesUpstream)
    (hu : u.userOutcome = some 200) (hu' : u'.userOutcome = some 200)
    (horders : (collectOrdersRetry u.pages 0 0 0).orders
      = (collectOrdersRetry u'.pages 0 0 0).orders)
    (hbat : u.batches = u'.batches) :
    (salesRoute (some token) u).1 = (salesRoute (some token) u').1 := by
  simp only [salesRoute, hu, hu', horders, hbat]
  simp [isOkStatus]

/-- Witness for `sales_response_untagged_amended`: the failure-threshold
run and the complete run of `partial_not_tagged_counterexample` have equal
accumulated orders and equal batch behaviour, hence equal payloads. -/
theorem sales_response_untagged_amended_witness :
    (salesRoute (some "t")
      { userOutcome := some 200,
        pages := fun n => if n = 0
          then PageOutcome.resp 200 (List.replicate 50 ⟨none⟩) 5000
          else PageOutcome.resp 500 [] 0,
        batches := fun _ => BatchOutcome.resp 200 [] }).1 =
    (salesRoute (some "t")
      { userOutcome := some 200,
        pages := fun _ => PageOutcome.resp 200 (List.replicate 50 ⟨none⟩) 50,
        batches := fun _ => BatchOutcome.resp 200 [] }).1 := by
  apply sales_response_untagged_amended "t" _ _ rfl rfl
  · simp [collectOrdersRetry, isOkStatus]
  · rfl

/-- Counterexample to **C1**: with every orders page answered 401, the
sales pipeline does *not* abort on the first 401 — it re-requests the same
offset twice more (three page requests in total, with inter-attempt
delays) before hitting the consecutive-failure threshold — and then
terminates with an ordinary 200 success payload identical to that of a
fully-complete empty run: no auth-failed outcome reaches the caller. -/
theorem auth_abort_counterexample :
    (collectOrdersRetry (fun _ => PageOutcome.resp 401 [] 0) 0 0 0).offsets
      = [0, 0, 0] ∧
    (salesRoute (some "t")
      { userOutcome := some 200,
        pages := fun _ => PageOutcome.resp 401 [] 0,
        batches := fun _ => BatchOutcome.resp 200 [] }).1 =
    (salesRoute (some "t")
      { userOutcome := some 200,
        pages := fun _ => PageOutcome.resp 200 [] 0,
        batches := fun _ => BatchOutcome.resp 200 [] }).1 := by
  constructor
  · simp [collectOrdersRetry, isOkStatus]
  · simp [salesRoute, collectOrdersRetry, isOkStatus, collectItemSales, skuPassAux]

/-- Claim **C1 as amended**: (1) the resilient fetcher itself never retries a
401 — the response is returned as-is after a single attempt with no
backoff; (2) a 401 on the *initial user-info call of the products route*
is surfaced as the distinguishable 401 `Token inválido o expirado`
response, with zero accumulated items and no further upstream calls; but
(3) a 401 on the products listing page produces the generic 500, equal to
the result for any other failing status; and (4) a 401 on an orders page
of the sales pipeline is treated as a generic page failure: the collector
re-requests the same offset (up to the 3-consecutive-failure threshold)
instead of aborting, and no auth-specific terminal outcome exists. -/
theorem auth_handling_amended :
    (∀ (f : Nat → AttemptOutcome) (r d : Nat), 1 ≤ r → f 0 = some 401 →
      fetchWithRetry f r d 0 = ⟨FetchOut.success 401, [], 1⟩) ∧
    (∀ (t : String) (qO qL : Option Nat) (u : ProductsUpstream),
      u.userOutcome = some 401 →
      productsRoute (some t) qO qL u = (ProductsOut.tokenExpired, [UpReq.userinfo])) ∧
    (∀ (t : String) (qO qL : Option Nat) (u u' : ProductsUpstream)
      (ids ids' : List String) (total total' : Nat),
      u.userOutcome = some 200 → u.searchOutcome = some (401, ids, total) →
      u'.userOutcome = some 200 → u'.searchOutcome = some (500, ids', total') →
      (productsRoute (some t) qO qL u).1 = ProductsOut.failed ∧
      (productsRoute (some t) qO qL u).1 = (productsRoute (some t) qO qL u').1) ∧
    (∀ (page : Nat → PageOutcome) (n offset fa : Nat)
      (results : List Order) (total : Nat),
      page n = PageOutcome.resp 401 results total → fa + 1 < 3 →
      collectOrdersRetry page n offset fa =
        ⟨(collectOrdersRetry page (n + 1) offset (fa + 1)).orders,
         offset :: (collectOrdersRetry page (n + 1) offset (fa + 1)).offsets,
         (collectOrdersRetry page (n + 1) offset (fa + 1)).stop⟩) := by
  refine ⟨?_, ?_, ?_, ?_⟩
  · intro f r d hr hf
    have h := fwr_characterize f r d 0 0 401 (fun j hj => absurd hj (by omega))
      (by omega) (by simpa using hf) (by decide)
    simpa using h
  · intro t qO qL u hu
    simp [productsRoute, hu, isOkStatus]
  · intro t qO qL u u' ids ids' total total' hu hs hu' hs'
    constructor
    · simp [productsRoute, hu, hs, isOkStatus]
    · simp [productsRoute, hu, hs, hu', hs', isOkStatus]
  · intro page n offset fa results total hpage hfa
    rw [collectOrdersRetry, hpage]
    simp [isOkStatus, show ¬ fa + 1 ≥ 3 by omega]

/-- Witness for `auth_handling_amended` at concrete inputs: a 401 on the
single fetch attempt returns immediately (1 attempt, no waits); a 401 on
the user-info call yields the distinguishable 401 with an empty trace
beyond the user-info request; a 401 on the listing page yields the generic
500, equal to a 500-listing run; and a 401 orders page makes the collector
re-request offset 0. -/
theorem auth_handling_amended_witness :
    fetchWithRetry (fun _ => some 401) 3 1000 0 = ⟨FetchOut.success 401, [], 1⟩ ∧
    productsRoute (some "t") none none
      { userOutcome := some 401, searchOutcome := none,
        batches := fun _ => BatchOutcome.thrown }
      = (ProductsOut.tokenExpired, [UpReq.userinfo]) ∧
    (productsRoute (some "t") none none
      { userOutcome := some 200, searchOutcome := some (401, [], 0),
        batches := fun _ => BatchOutcome.thrown }).1 = ProductsOut.failed ∧
    (productsRoute (some "t") none none
      { userOutcome := some 200, searchOutcome := some (401, [], 0),
        batches := fun _ => BatchOutcome.thrown }).1 =
      (productsRoute (some "t") none none
        { userOutcome := some 200, searchOutcome := some (500, [], 0),
          batches := fun _ => BatchOutcome.thrown }).1 ∧
    collectOrdersRetry (fun _ => PageOutcome.resp 401 [] 0) 0 0 0 =
      ⟨(collectOrdersRetry (fun _ => PageOutcome.resp 401 [] 0) 1 0 1).orders,
       0 :: (collectOrdersRetry (fun _ => PageOutcome.resp 401 [] 0) 1 0 1).offsets,
       (collectOrdersRetry (fun _ => PageOutcome.resp 401 [] 0) 1 0 1).stop⟩ := by
  have h := auth_handling_amended
  have h3 := h.2.2.1 "t" none none
    { userOutcome := some 200, searchOutcome := some (401, [], 0),
      batches := fun _ => BatchOutcome.thrown }
    { userOutcome := some 200, searchOutcome := some (500, [], 0),
      batches := fun _ => BatchOutcome.thrown }
    [] [] 0 0 rfl rfl rfl rfl
  exact ⟨h.1 (fun _ => some 401) 3 1000 (by omega) rfl,
    h.2.1 "t" none none _ rfl, h3.1, h3.2,
    h.2.2.2 (fun _ => PageOutcome.resp 401 [] 0) 0 0 0 [] 0 rfl (by omega)⟩
